import Mathlib

/-!
Verification of the NVIDIA Omniverse connect-samples repository.

Each sample program is shallowly embedded: the console input consumed by a
function is passed as an explicit list (one element per read operation), the
observable side effects (channel messages, merge operations, SDK calls) are
returned as explicit event traces, and calls into the closed vendor SDK are
either recorded as events or abstracted as function parameters.
-/

set_option maxHeartbeats 1000000

namespace LiveSession

/-- Channel message types used by liveSession.cpp
(omni::connect::core::LiveSessionChannel::MessageType). -/
inductive MessageType
  | eMergeStarted
  | eMergeFinished
  | eGetUsers
  | eHello
deriving DecidableEq, Repr

/-- Observable events of `endAndMergeSession`: a channel-message send, or one of
the two merge calls on the LiveSession object. -/
inductive MergeEvent
  | sendMsg (t : MessageType)
  | mergeToNewLayer
  | mergeToRoot
deriving DecidableEq, Repr

/-- Loop guard of the `while (mergeOption != "n" && mergeOption != "r" && mergeOption != "c")`
loop in `endAndMergeSession` (liveSession.cpp:264): a read string is accepted when it is
one of the three options. -/
def acceptedMergeOption (s : String) : Bool :=
  s = "n" || s = "r" || s = "c"

/-- The read loop of `endAndMergeSession` (liveSession.cpp:264-275): repeatedly read a
whitespace-delimited string with `std::cin >> mergeOption` until an accepted option
appears; returns that option, or `none` when input is exhausted. -/
def readMergeOption : List String → Option String
  | [] => none
  | s :: rest => if acceptedMergeOption s then some s else readMergeOption rest

/-- The exact strings consumed from stdin by the read loop of `endAndMergeSession`:
every rejected string plus the first accepted one. -/
def mergePromptReads : List String → List String
  | [] => []
  | s :: rest => if acceptedMergeOption s then [s] else s :: mergePromptReads rest

/-- Shallow embedding of `endAndMergeSession` (liveSession.cpp:253-294).
The returned trace lists the observable events in program order: the
eMergeStarted channel message is sent first, then the merge option is read in a
loop, and then exactly one of `mergeToNewLayer` ("n"), `mergeToRoot` ("r") or no
merge at all ("c") happens.  The second component is the boolean return value,
`none` when the read loop never sees an accepted option. -/
def endAndMergeSession (inputs : List String) : List MergeEvent × Option Bool :=
  let pre := [MergeEvent.sendMsg MessageType.eMergeStarted]
  match readMergeOption inputs with
  | none => (pre, none)
  | some opt =>
    if opt = "n" then (pre ++ [MergeEvent.mergeToNewLayer], some true)
    else if opt = "r" then (pre ++ [MergeEvent.mergeToRoot], some true)
    else (pre, some false)

lemma readMergeOption_accepted {inputs : List String} {s : String}
    (h : readMergeOption inputs = some s) : acceptedMergeOption s = true := by
  induction inputs with
  | nil => simp [readMergeOption] at h
  | cons a rest ih =>
    cases ha : acceptedMergeOption a with
    | true =>
      simp [readMergeOption, ha] at h
      subst h; exact ha
    | false =>
      simp [readMergeOption, ha] at h
      exact ih h

lemma readMergeOption_eq_find (inputs : List String) :
    readMergeOption inputs = inputs.find? acceptedMergeOption := by
  induction inputs with
  | nil => rfl
  | cons a rest ih =>
    cases ha : acceptedMergeOption a with
    | true => simp [readMergeOption, ha, List.find?]
    | false => simp [readMergeOption, ha, List.find?, ih]

/-- C1: in `endAndMergeSession`, the eMergeStarted message is sent first (before
any merge event); the read loop returns the first accepted string among "n",
"r", "c"; and the merge performed together with the boolean result is determined
exactly by that first accepted string: `mergeToNewLayer` and `true` iff "n",
`mergeToRoot` and `true` iff "r", no merge and `false` iff "c". -/
theorem endAndMergeSession_merge_protocol (inputs : List String) :
    (endAndMergeSession inputs).1.head? = some (MergeEvent.sendMsg MessageType.eMergeStarted) ∧
    readMergeOption inputs = inputs.find? acceptedMergeOption ∧
    ((endAndMergeSession inputs).2 = some true ∧
        MergeEvent.mergeToNewLayer ∈ (endAndMergeSession inputs).1 ↔
      readMergeOption inputs = some "n") ∧
    ((endAndMergeSession inputs).2 = some true ∧
        MergeEvent.mergeToRoot ∈ (endAndMergeSession inputs).1 ↔
      readMergeOption inputs = some "r") ∧
    ((endAndMergeSession inputs).2 = some false ∧
        MergeEvent.mergeToNewLayer ∉ (endAndMergeSession inputs).1 ∧
        MergeEvent.mergeToRoot ∉ (endAndMergeSession inputs).1 ↔
      readMergeOption inputs = some "c") := by
  refine ⟨?_, readMergeOption_eq_find inputs, ?_, ?_, ?_⟩ <;>
  · rcases h : readMergeOption inputs with _ | s
    · simp [endAndMergeSession, h]
    · have hs := readMergeOption_accepted h
      simp only [acceptedMergeOption, Bool.or_eq_true, decide_eq_true_eq] at hs
      rcases hs with (hn | hr) | hc <;> subst_vars <;> simp [endAndMergeSession, h]

/-- Predicate on channel messages that make AppUpdate::run set `gStageMerged`
(liveSession.cpp:566-571): eMergeStarted or eMergeFinished. -/
def mergeNotice (t : MessageType) : Bool :=
  t = MessageType.eMergeStarted || t = MessageType.eMergeFinished

/-- Shallow embedding of the message loop inside `AppUpdate::run`
(liveSession.cpp:555-573): given the value of `gStageMerged` before the batch and
the list of processed channel-message types, returns the value of `gStageMerged`
afterwards.  The flag is only ever written with `true`, on merge notices. -/
def processMessages (gStageMerged : Bool) (msgs : List MessageType) : Bool :=
  msgs.foldl (fun g t => if mergeNotice t then true else g) gStageMerged

/-- Observable actions of one iteration of liveSession's `liveEdit` loop: reading
one command character (`_getch`/`getchar`), the `omniClientLiveProcess` call, and
the dispatch of the command in the `switch` statement.  The bodies of the
individual switch cases are abstracted (endAndMergeSession is modelled
separately). -/
inductive LSAction
  | readChar (c : Char)
  | liveProcess
  | dispatch (c : Char)
deriving DecidableEq, Repr

/-- Result of one iteration of liveSession's `liveEdit` while-loop
(liveSession.cpp:317-521): the actions it performs, whether the function
returned (the `if (gStageMerged) return;` check), and the value of `wait`
afterwards. -/
structure IterResult where
  actions : List LSAction
  returned : Bool
  wait : Bool
deriving DecidableEq, Repr

/-- One iteration of liveSession's `liveEdit` loop (liveSession.cpp:317-521):
read one character, then return immediately when `gStageMerged` is set;
otherwise call omniClientLiveProcess and dispatch the command.  `mergeOk` is the
return value of `endAndMergeSession` used in the 'm' case; 'q' and escape
(ASCII 27) clear `wait`. -/
def liveEditIteration (gStageMerged : Bool) (nextCommand : Char) (mergeOk : Bool) : IterResult :=
  if gStageMerged then
    ⟨[LSAction.readChar nextCommand], true, true⟩
  else
    ⟨[LSAction.readChar nextCommand, LSAction.liveProcess, LSAction.dispatch nextCommand], false,
      if nextCommand = 'm' then !mergeOk
      else if nextCommand = 'q' ∨ nextCommand = Char.ofNat 27 then false
      else true⟩

/-- The whole `liveEdit` while-loop, returning the commands that reach the
`switch` statement.  Each list element supplies one iteration's inputs: the
value of `gStageMerged` observed after the read, the command character, and the
result of `endAndMergeSession` for a possible 'm' command. -/
def liveEditLoop : List (Bool × Char × Bool) → List Char
  | [] => []
  | (g, c, mOk) :: rest =>
    let r := liveEditIteration g c mOk
    if r.returned then []
    else c :: (if r.wait then liveEditLoop rest else [])

/-- Number of readChar actions in an action list (one per `_getch`/`getchar`). -/
def countReadChars (l : List LSAction) : Nat :=
  l.countP fun a => match a with
    | LSAction.readChar _ => true
    | _ => false

lemma processMessages_eq_or (g : Bool) (msgs : List MessageType) :
    processMessages g msgs = (g || msgs.any mergeNotice) := by
  induction msgs generalizing g with
  | nil => simp [processMessages]
  | cons t rest ih =>
    show processMessages (if mergeNotice t then true else g) rest =
      (g || (t :: rest).any mergeNotice)
    rw [ih]
    cases ht : mergeNotice t <;> simp [List.any_cons, ht]

/-- C2: once AppUpdate::run processes an eMergeStarted or eMergeFinished
message, `gStageMerged` is true (and it is never reset); and a `liveEdit`
iteration that observes `gStageMerged` returns right after reading one input
character, before the switch, so the loop dispatches no command at or after the
iteration observing the flag: the number of dispatched commands is at most the
index of that iteration. -/
theorem liveEdit_stops_after_merge_notice :
    (∀ (g : Bool) (msgs : List MessageType),
      (g = true ∨ ∃ t ∈ msgs, mergeNotice t = true) → processMessages g msgs = true) ∧
    (∀ (c : Char) (mergeOk : Bool),
      liveEditIteration true c mergeOk = ⟨[LSAction.readChar c], true, true⟩) ∧
    (∀ (tr : List (Bool × Char × Bool)) (i : Nat) (c : Char) (mOk : Bool),
      tr[i]? = some (true, c, mOk) → (liveEditLoop tr).length ≤ i) := by
  refine ⟨?_, ?_, ?_⟩
  · intro g msgs h
    rw [processMessages_eq_or]
    rcases h with h | ⟨t, ht, hm⟩
    · simp [h]
    · have : msgs.any mergeNotice = true := List.any_eq_true.mpr ⟨t, ht, hm⟩
      simp [this]
  · intro c mergeOk
    rfl
  · intro tr
    induction tr with
    | nil => intro i c mOk h; simp at h
    | cons e rest ih =>
      intro i c mOk h
      rcases e with ⟨g, c', mOk'⟩
      cases i with
      | zero =>
        simp at h
        simp [liveEditLoop, liveEditIteration, h.1]
      | succ j =>
        simp at h
        cases g with
        | true => simp [liveEditLoop, liveEditIteration]
        | false =>
          have hr := ih j c mOk h
          have hstep : liveEditLoop ((false, c', mOk') :: rest) =
              c' :: (if (liveEditIteration false c' mOk').wait then liveEditLoop rest else []) := by
            simp [liveEditLoop, liveEditIteration]
          rw [hstep]
          have hb : (if (liveEditIteration false c' mOk').wait then
              liveEditLoop rest else []).length ≤ (liveEditLoop rest).length := by
            split <;> simp
          simp only [List.length_cons]
          omega

/-- Witness for liveEdit_stops_after_merge_notice at a concrete trace: the
second iteration observes gStageMerged and the loop has dispatched at most one
command. -/
theorem liveEdit_stops_after_merge_notice_witness :
    [(false, 't', false), (true, 'q', false)][1]? = some (true, 'q', false) ∧
    (liveEditLoop [(false, 't', false), (true, 'q', false)]).length ≤ 1 :=
  ⟨by decide,
   liveEdit_stops_after_merge_notice.2.2 [(false, 't', false), (true, 'q', false)] 1 'q' false
     (by decide)⟩

/-- Model of C's `std::isdigit` on an ASCII character: true exactly for the
codes of '0' (48) through '9' (57). -/
def isdigitChar (c : Char) : Bool :=
  48 ≤ c.toNat && c.toNat ≤ 57

/-- Outcome of `findOrCreateSession` (liveSession.cpp:205-251): either a session
was joined by name, or the process terminated through `exit`. -/
inductive JoinOutcome
  | joined (name : String)
  | exited (code : Nat)
deriving DecidableEq, Repr

/-- The join-and-check tail of `findOrCreateSession` (liveSession.cpp:241-250):
`liveSession->join(sessionName)` followed by `exit(1)` on failure. -/
def joinSession (joinOk : String → Bool) (sessionName : String) : JoinOutcome :=
  if joinOk sessionName then JoinOutcome.joined sessionName else JoinOutcome.exited 1

/-- Shallow embedding of `findOrCreateSession` (liveSession.cpp:205-251).
`selection` is the single character read by `std::cin >> selection`; `newName`
is the string read by the 'n' branch; `joinOk` abstracts whether
`liveSession->join` returns a valid live layer.  `size_t(selection) - 0x30`
is modelled with Nat subtraction, which agrees with the C++ value whenever the
digit test passes. -/
def findOrCreateSession (sessionList : List String) (selection : Char) (newName : String)
    (joinOk : String → Bool) : JoinOutcome :=
  let selectionIdx := selection.toNat - 0x30
  if isdigitChar selection ∧ selectionIdx < sessionList.length then
    joinSession joinOk (sessionList.getD selectionIdx "")
  else if selection = 'n' then
    joinSession joinOk newName
  else
    JoinOutcome.exited 0

/-- C4: the selection character determines the outcome of
`findOrCreateSession`: a digit `d` below the session count joins the session at
index `d` by name (and such an index is necessarily below 10, so sessions at
index 10 or above are unreachable from this menu); 'n' joins the newly named
session; any other character exits with code 0; and a failed join exits with
code 1. -/
theorem findOrCreateSession_selection (sessionList : List String) (selection : Char)
    (newName : String) (joinOk : String → Bool) :
    (isdigitChar selection = true → selection.toNat - 0x30 < sessionList.length →
      selection.toNat - 0x30 < 10 ∧
      findOrCreateSession sessionList selection newName joinOk =
        joinSession joinOk (sessionList.getD (selection.toNat - 0x30) "")) ∧
    ((isdigitChar selection = false ∨ sessionList.length ≤ selection.toNat - 0x30) →
      selection = 'n' →
      findOrCreateSession sessionList selection newName joinOk = joinSession joinOk newName) ∧
    ((isdigitChar selection = false ∨ sessionList.length ≤ selection.toNat - 0x30) →
      selection ≠ 'n' →
      findOrCreateSession sessionList selection newName joinOk = JoinOutcome.exited 0) ∧
    (∀ s : String, joinOk s = false → joinSession joinOk s = JoinOutcome.exited 1) ∧
    (∀ s : String, joinOk s = true → joinSession joinOk s = JoinOutcome.joined s) := by
  refine ⟨?_, ?_, ?_, ?_, ?_⟩
  · intro hd hlt
    constructor
    · simp only [isdigitChar, Bool.and_eq_true, decide_eq_true_eq] at hd
      omega
    · simp [findOrCreateSession, hd, hlt]
  · intro hfail hn
    subst hn
    have hdig : isdigitChar 'n' = false := by decide
    simp [findOrCreateSession, hdig]
  · intro hfail hn
    have : ¬ (isdigitChar selection = true ∧ selection.toNat - 0x30 < sessionList.length) := by
      rcases hfail with h | h
      · simp [h]
      · intro hc; omega
    simp [findOrCreateSession, this, hn]
  · intro s hs; simp [joinSession, hs]
  · intro s hs; simp [joinSession, hs]

/-- Witness for findOrCreateSession_selection: with two listed sessions,
selection '1' joins the session at index 1. -/
theorem findOrCreateSession_selection_witness :
    isdigitChar '1' = true ∧ ('1').toNat - 0x30 < (["alpha", "beta"] : List String).length ∧
    ('1').toNat - 0x30 < 10 ∧
    findOrCreateSession ["alpha", "beta"] '1' "fresh" (fun _ => true) =
      joinSession (fun _ => true) ((["alpha", "beta"] : List String).getD (('1').toNat - 0x30) "") :=
  ⟨by decide, by decide,
    (findOrCreateSession_selection ["alpha", "beta"] '1' "fresh" (fun _ => true)).1
      (by decide) (by decide)⟩

end LiveSession

namespace HelloWorld

/-- Box half-extent from helloWorld.cpp:431 (`double gVal = 50.0`; the value is an
integer, so it is modelled exactly with Int). -/
def gVal : Int := 50

/-- Box face-vertex index table from helloWorld.cpp:432. -/
def gBoxVertexIndices : List Int :=
  [0, 1, 2, 1, 3, 2, 4, 5, 6, 4, 6, 7, 8, 9, 10, 8, 10, 11,
   12, 13, 14, 12, 14, 15, 16, 17, 18, 16, 18, 19, 20, 21, 22, 20, 22, 23]

/-- Box point table from helloWorld.cpp:435 (each coordinate is gVal or -gVal). -/
def gBoxPoints : List (Int × Int × Int) :=
  [(gVal, -gVal, -gVal), (-gVal, -gVal, -gVal), (gVal, gVal, -gVal), (-gVal, gVal, -gVal),
   (gVal, gVal, gVal), (-gVal, gVal, gVal), (-gVal, -gVal, gVal), (gVal, -gVal, gVal),
   (gVal, -gVal, gVal), (-gVal, -gVal, gVal), (-gVal, -gVal, -gVal), (gVal, -gVal, -gVal),
   (gVal, gVal, gVal), (gVal, -gVal, gVal), (gVal, -gVal, -gVal), (gVal, gVal, -gVal),
   (-gVal, gVal, gVal), (gVal, gVal, gVal), (gVal, gVal, -gVal), (-gVal, gVal, -gVal),
   (-gVal, -gVal, gVal), (-gVal, gVal, gVal), (-gVal, gVal, -gVal), (-gVal, -gVal, -gVal)]

/-- Face-vertex counts built by `createBox` (helloWorld.cpp:447-449): twelve
triangles. -/
def createBoxFaceVertexCounts : List Int :=
  List.replicate 12 3

/-- Face-vertex counts of the quad built by `createQuad` (helloWorld.cpp:385). -/
def createQuadFaceVertexCounts : List Int := [4]

/-- Face-vertex indices of the quad built by `createQuad` (helloWorld.cpp:386). -/
def createQuadFaceVertexIndices : List Int := [0, 1, 2, 3]

/-- Point table of the quad built by `createQuad` (helloWorld.cpp:387-392), as a
function of the `size` argument. -/
def createQuadPoints (size : Int) : List (Int × Int × Int) :=
  [(-size, 0, -size), (-size, 0, size), (size, 0, size), (size, 0, -size)]

/-- Normal table of the quad built by `createQuad` (helloWorld.cpp:394). -/
def createQuadNormals : List (Int × Int × Int) :=
  [(0, 1, 0), (0, 1, 0), (0, 1, 0), (0, 1, 0)]

/-- Observable actions of helloWorld's `liveEdit` loop (helloWorld.cpp:927-1079):
the per-iteration `inputChar` read and `omniClientLiveProcess` call, and the
effects of the individual switch cases. -/
inductive HWAction
  | readChar (c : Char)
  | liveProcess
  | transform
  | createAnim
  | setElbow
  | readLine (s : String)
  | sendChannelMessage (s : String)
  | logDisconnected
  | leaveChannel
  | printOptions
deriving DecidableEq, Repr

/-- The 'a' (stream anim) case of helloWorld's `liveEdit` (helloWorld.cpp:999-1022):
sixty frames, each setting the elbow translation and committing with
`omniClientLiveProcess`. -/
def streamFrames : Nat → List HWAction
  | 0 => []
  | n + 1 => HWAction.setElbow :: HWAction.liveProcess :: streamFrames n

/-- The `switch` dispatch of helloWorld's `liveEdit` (helloWorld.cpp:935-1077).
`line` is the text consumed by `getline()` in the 'm' case, and `joined` is
whether the channel join request is still valid there. -/
def helloDispatch (c : Char) (line : String) (joined : Bool) : List HWAction :=
  if c = 't' then [HWAction.transform, HWAction.liveProcess]
  else if c = 's' then [HWAction.createAnim, HWAction.liveProcess]
  else if c = 'a' then streamFrames 60
  else if c = 'm' then
    (if joined then [HWAction.readLine line, HWAction.sendChannelMessage line]
     else [HWAction.logDisconnected])
  else if c = 'l' then [HWAction.leaveChannel]
  else if c = 'q' ∨ c = Char.ofNat 27 then []
  else [HWAction.printOptions]

/-- One iteration of helloWorld's `liveEdit` loop (helloWorld.cpp:928-934): read
exactly one character with `inputChar()`, call `omniClientLiveProcess`, then
dispatch the command. -/
def helloLiveEditIter (c : Char) (line : String) (joined : Bool) : List HWAction :=
  HWAction.readChar c :: HWAction.liveProcess :: helloDispatch c line joined

/-- The whole `liveEdit` while-loop of helloWorld as a list of per-iteration
action traces; the loop ends after a 'q' or escape (ASCII 27) iteration. -/
def helloLiveEditIters : List (Char × String × Bool) → List (List HWAction)
  | [] => []
  | (c, line, j) :: rest =>
    helloLiveEditIter c line j ::
      (if c = 'q' ∨ c = Char.ofNat 27 then [] else helloLiveEditIters rest)

/-- Number of readChar actions in an action list (one per `inputChar()` call). -/
def countHWReadChars (l : List HWAction) : Nat :=
  l.countP fun a => match a with
    | HWAction.readChar _ => true
    | _ => false

lemma liveProcess_mem_helloLiveEditIter (c : Char) (line : String) (joined : Bool) :
    HWAction.liveProcess ∈ helloLiveEditIter c line joined := by
  simp [helloLiveEditIter]

lemma mem_helloLiveEditIters {inputs : List (Char × String × Bool)} {it : List HWAction}
    (h : it ∈ helloLiveEditIters inputs) :
    ∃ c line j, it = helloLiveEditIter c line j := by
  induction inputs with
  | nil => simp [helloLiveEditIters] at h
  | cons e rest ih =>
    rcases e with ⟨c, line, j⟩
    simp only [helloLiveEditIters, List.mem_cons] at h
    rcases h with h | h
    · exact ⟨c, line, j, h⟩
    · by_cases hq : c = 'q' ∨ c = Char.ofNat 27
      · simp [hq] at h
      · simp only [if_neg hq] at h
        exact ih h

lemma countHWReadChars_streamFrames (n : Nat) : countHWReadChars (streamFrames n) = 0 := by
  induction n with
  | zero => rfl
  | succ m ih => simp [streamFrames, countHWReadChars, List.countP_cons] at ih ⊢; exact ih

lemma countHWReadChars_helloDispatch (c : Char) (line : String) (joined : Bool) :
    countHWReadChars (helloDispatch c line joined) = 0 := by
  unfold helloDispatch
  split
  · rfl
  · split
    · rfl
    · split
      · exact countHWReadChars_streamFrames 60
      · split
        · split <;> rfl
        · split
          · rfl
          · split <;> rfl

lemma countHWReadChars_helloLiveEditIter (c : Char) (line : String) (joined : Bool) :
    countHWReadChars (helloLiveEditIter c line joined) = 1 := by
  simp [helloLiveEditIter, countHWReadChars, List.countP_cons]
  have := countHWReadChars_helloDispatch c line joined
  simpa [countHWReadChars] using this

end HelloWorld

namespace SimpleSensor

/-- Box half-extent from omniSimpleSensor.cpp:190 (`double gVal = 50.0`). -/
def gVal : Int := 50

/-- Box face-vertex index table from omniSimpleSensor.cpp:191-192. -/
def gBoxVertexIndices : List Int :=
  [0, 1, 2, 1, 3, 2, 4, 5, 6, 4, 6, 7, 8, 9, 10, 8, 10, 11,
   12, 13, 14, 12, 14, 15, 16, 17, 18, 16, 18, 19, 20, 21, 22, 20, 22, 23]

/-- Box point table from omniSimpleSensor.cpp:196-200 (each coordinate is gVal
or -gVal). -/
def gBoxPoints : List (Int × Int × Int) :=
  [(gVal, -gVal, -gVal), (-gVal, -gVal, -gVal), (gVal, gVal, -gVal), (-gVal, gVal, -gVal),
   (gVal, gVal, gVal), (-gVal, gVal, gVal), (-gVal, -gVal, gVal), (gVal, -gVal, gVal),
   (gVal, -gVal, gVal), (-gVal, -gVal, gVal), (-gVal, -gVal, -gVal), (gVal, -gVal, -gVal),
   (gVal, gVal, gVal), (gVal, -gVal, gVal), (gVal, -gVal, -gVal), (gVal, gVal, -gVal),
   (-gVal, gVal, gVal), (gVal, gVal, gVal), (gVal, gVal, -gVal), (-gVal, gVal, -gVal),
   (-gVal, -gVal, gVal), (-gVal, gVal, gVal), (-gVal, gVal, -gVal), (-gVal, -gVal, -gVal)]

/-- Face-vertex counts built by `createZoneGeometry` (omniSimpleSensor.cpp:227-229):
twelve triangles. -/
def createZoneGeometryFaceVertexCounts : List Int :=
  List.replicate 12 3

end SimpleSensor

namespace SensorThread

/-- Observable actions of one iteration of `DataStageWriterWorker::doWork`
(omniSensorThread.cpp:163-199): the 300 ms sleep, the `omniClientLiveProcess`
calls, and the display-color update. -/
inductive SensorAction
  | sleep300ms
  | liveProcess
  | setColor
deriving DecidableEq, Repr

/-- Shallow embedding of the `while (!stopped)` loop of
`DataStageWriterWorker::doWork` (omniSensorThread.cpp:165-198), as the list of
per-iteration action traces.  Each element of `stops` is the value of the
`stopped` flag read at the top of one iteration. -/
def doWork : List Bool → List (List SensorAction)
  | [] => []
  | stopped :: rest =>
    if stopped then []
    else
      [SensorAction.sleep300ms, SensorAction.liveProcess,
       SensorAction.setColor, SensorAction.liveProcess] :: doWork rest

lemma mem_doWork {stops : List Bool} {it : List SensorAction} (h : it ∈ doWork stops) :
    SensorAction.liveProcess ∈ it := by
  induction stops with
  | nil => simp [doWork] at h
  | cons s rest ih =>
    cases s with
    | true => simp [doWork] at h
    | false =>
      simp only [doWork, if_neg Bool.false_ne_true, List.mem_cons] at h
      rcases h with h | h
      · subst h; simp
      · exact ih h

end SensorThread

namespace OmniCli

/-- State read by omnicli's background update thread (omnicli.cpp:1379-1396):
the `g_haveUpdates` and `g_shutdown` globals. -/
structure CliState where
  haveUpdates : Bool
  shutdown : Bool
deriving DecidableEq, Repr

/-- The only observable action of the update thread: `omniClientLiveProcess`. -/
inductive CliAction
  | liveProcess
deriving DecidableEq, Repr

/-- Shallow embedding of omnicli's background update thread loop
(omnicli.cpp:1383-1395).  Each element of the list is the global state observed
at the top of one outer `while (!g_shutdown)` iteration (after a condition
variable wake-up); the body calls `omniClientLiveProcess` only when
`g_haveUpdates` is set, and otherwise just waits. -/
def updateThreadIters : List CliState → List CliAction
  | [] => []
  | st :: rest =>
    if st.shutdown then []
    else (if st.haveUpdates then [CliAction.liveProcess] else []) ++ updateThreadIters rest

/-- Number of outer loop iterations the update thread actually executes before
observing `g_shutdown`. -/
def itersExecuted : List CliState → Nat
  | [] => 0
  | st :: rest => if st.shutdown then 0 else 1 + itersExecuted rest

/-- Number of executed iterations that observe `g_haveUpdates`. -/
def itersWithUpdates : List CliState → Nat
  | [] => 0
  | st :: rest =>
    if st.shutdown then 0
    else (if st.haveUpdates then 1 else 0) + itersWithUpdates rest

lemma updateThreadIters_length (sts : List CliState) :
    (updateThreadIters sts).length = itersWithUpdates sts := by
  induction sts with
  | nil => rfl
  | cons st rest ih =>
    cases hs : st.shutdown with
    | true => simp [updateThreadIters, itersWithUpdates, hs]
    | false =>
      cases hu : st.haveUpdates with
      | true =>
        simp [updateThreadIters, itersWithUpdates, hs, hu, ih]
        omega
      | false =>
        simp [updateThreadIters, itersWithUpdates, hs, hu, ih]

/-- Subset of the OmniClientResult enum from OmniClient.h used by omnicli: the
three Ok variants plus representative error variants. -/
inductive OmniClientResult
  | Ok
  | OkLatest
  | OkNotYetFound
  | Error
  | ErrorConnection
  | ErrorNotFound
  | ErrorAccessDenied
deriving DecidableEq, Repr

/-- C's EXIT_SUCCESS. -/
def EXIT_SUCCESS : Nat := 0

/-- C's EXIT_FAILURE. -/
def EXIT_FAILURE : Nat := 1

/-- Shallow embedding of `resultToRetcode` (omnicli.cpp:133-144): the three Ok
variants map to EXIT_SUCCESS, everything else to EXIT_FAILURE. -/
def resultToRetcode (result : OmniClientResult) : Nat :=
  match result with
  | OmniClientResult.Ok | OmniClientResult.OkLatest | OmniClientResult.OkNotYetFound =>
    EXIT_SUCCESS
  | _ => EXIT_FAILURE

/-- An Ok variant of OmniClientResult (eOmniClientResult_Ok, OkLatest,
OkNotYetFound). -/
def isOkVariant (result : OmniClientResult) : Bool :=
  result = OmniClientResult.Ok || result = OmniClientResult.OkLatest ||
    result = OmniClientResult.OkNotYetFound

/-- Arguments omnicli's `makeCheckpoint` passes to `omniClientCreateCheckpoint`
(omnicli.cpp:903). -/
structure CheckpointCall where
  url : String
  comment : String
  force : Bool
deriving DecidableEq, Repr

/-- Shallow embedding of `makeCheckpoint` (omnicli.cpp:892-915): with enough
arguments it calls omniClientCreateCheckpoint with `bForce = true` and the
callback stores `resultToRetcode(result)` into the return code.  `result` is the
OmniClientResult delivered to the callback. -/
def makeCheckpoint (args : List String) (result : OmniClientResult) :
    Option CheckpointCall × Nat :=
  if args.length ≤ 1 then (none, EXIT_FAILURE)
  else
    (some ⟨args.getD 1 "", if 2 < args.length then args.getD 2 "" else "", true⟩,
     resultToRetcode result)

/-- URL decomposition produced by the vendor `omniClientBreakUrl`: the query
string, which `restoreCheckpoint` rewrites, and the rest of the URL. -/
structure BrokenUrl where
  base : String
  query : String
deriving DecidableEq, Repr

/-- Shallow embedding of `restoreCheckpoint` (omnicli.cpp:940-997).  The vendor
URL helpers are abstract parameters: `breakUrl` (omniClientBreakUrl),
`getBranchAndCheckpoint` (omniClientGetBranchAndCheckpointFromQuery, `none` when
the query holds no checkpoint), `makeQuery` (omniClientMakeQueryFromBranchAndCheckpoint
with checkpoint forced to 0, i.e. a query containing only the branch), `makeUrl`
(omniClientMakeUrl) and `combineWithBase` (omniClientCombineWithBaseUrl, `none`
on overflow).  `queryOverflow`/`urlOverflow` model the fixed-buffer checks.  The
first component is the (source, destination) pair passed to `omniClientCopy`,
when a copy is issued. -/
def restoreCheckpoint (breakUrl : String → BrokenUrl)
    (getBranchAndCheckpoint : String → Option (String × Nat))
    (makeQuery : String → String) (makeUrl : BrokenUrl → String)
    (combineWithBase : String → Option String)
    (queryOverflow urlOverflow : Bool)
    (args : List String) (copyResult : OmniClientResult) :
    Option (String × String) × Nat :=
  if args.length ≤ 1 then (none, EXIT_FAILURE)
  else
    match combineWithBase (args.getD 1 "") with
    | none => (none, EXIT_FAILURE)
    | some combined =>
      match getBranchAndCheckpoint (breakUrl combined).query with
      | none => (none, EXIT_FAILURE)
      | some branchCheckpoint =>
        if queryOverflow then (none, EXIT_FAILURE)
        else if urlOverflow then (none, EXIT_FAILURE)
        else
          (some (args.getD 1 "",
             makeUrl { breakUrl combined with query := makeQuery branchCheckpoint.1 }),
           resultToRetcode copyResult)

/-- C7: omnicli's checkpoint command calls omniClientCreateCheckpoint with
force = true and returns EXIT_SUCCESS iff the result is an Ok variant; and its
restoreCheckpoint command copies the given URL onto the same URL whose query has
been rebuilt to contain only the branch, returning EXIT_FAILURE without issuing
any copy whenever the URL's query contains no checkpoint. -/
theorem checkpoint_commands (args : List String) (result copyResult : OmniClientResult)
    (breakUrl : String → BrokenUrl) (getBranchAndCheckpoint : String → Option (String × Nat))
    (makeQuery : String → String) (makeUrl : BrokenUrl → String)
    (combineWithBase : String → Option String) :
    (1 < args.length →
      (makeCheckpoint args result).1.map CheckpointCall.force = some true ∧
      ((makeCheckpoint args result).2 = EXIT_SUCCESS ↔ isOkVariant result = true)) ∧
    (∀ combined, combineWithBase (args.getD 1 "") = some combined →
      getBranchAndCheckpoint (breakUrl combined).query = none →
      restoreCheckpoint breakUrl getBranchAndCheckpoint makeQuery makeUrl combineWithBase
        false false args copyResult = (none, EXIT_FAILURE)) ∧
    (1 < args.length → ∀ combined branch checkpoint,
      combineWithBase (args.getD 1 "") = some combined →
      getBranchAndCheckpoint (breakUrl combined).query = some (branch, checkpoint) →
      restoreCheckpoint breakUrl getBranchAndCheckpoint makeQuery makeUrl combineWithBase
        false false args copyResult =
        (some (args.getD 1 "", makeUrl { breakUrl combined with query := makeQuery branch }),
         resultToRetcode copyResult)) := by
  refine ⟨?_, ?_, ?_⟩
  · intro hlen
    have hc : ¬ (args.length ≤ 1) := by omega
    constructor
    · simp [makeCheckpoint, hc]
    · simp only [makeCheckpoint, if_neg hc]
      cases result <;> decide
  · intro combined hcomb hbc
    by_cases hc : args.length ≤ 1
    · simp [restoreCheckpoint, hc]
    · unfold restoreCheckpoint
      rw [if_neg hc, hcomb]
      dsimp only
      rw [hbc]
  · intro hlen combined branch checkpoint hcomb hbc
    have hc : ¬ (args.length ≤ 1) := by omega
    unfold restoreCheckpoint
    rw [if_neg hc, hcomb]
    dsimp only
    rw [hbc]
    simp

/-- Witness for checkpoint_commands: a concrete two-argument checkpoint command
with an Ok result uses force = true and returns EXIT_SUCCESS. -/
theorem checkpoint_commands_witness :
    (makeCheckpoint ["checkpoint", "omniverse://host/f.usd"] OmniClientResult.Ok).1.map
        CheckpointCall.force = some true ∧
    ((makeCheckpoint ["checkpoint", "omniverse://host/f.usd"] OmniClientResult.Ok).2 =
        EXIT_SUCCESS ↔ isOkVariant OmniClientResult.Ok = true) :=
  (checkpoint_commands ["checkpoint", "omniverse://host/f.usd"] OmniClientResult.Ok
    OmniClientResult.Ok (fun s => ⟨s, ""⟩) (fun _ => none) id (fun b => b.base)
    (fun s => some s)).1 (by decide)

/-- ACL access bit for Read (fOmniClientAccess_Read in OmniClient.h). -/
def accessRead : Nat := 1

/-- ACL access bit for Write (fOmniClientAccess_Write in OmniClient.h). -/
def accessWrite : Nat := 2

/-- ACL access bit for Admin (fOmniClientAccess_Admin in OmniClient.h). -/
def accessAdmin : Nat := 4

/-- An OmniClientAclEntry: a user/group name and its access bits. -/
structure AclEntry where
  name : String
  access : Nat
deriving DecidableEq, Repr

/-- The access-string parsing loop of `setacls` (omnicli.cpp:774-794):
`switch (toupper(*p))` accumulates access bits for A/W/R, records removal for
'-' (on which `toupper` is the identity, and which no other character maps to),
and fails on any other character. -/
def parseAccessAux : List Char → Nat → Bool → Option (Nat × Bool)
  | [], access, removeEntry => some (access, removeEntry)
  | c :: rest, access, removeEntry =>
    if c.toUpper = 'A' then parseAccessAux rest (access ||| accessAdmin) removeEntry
    else if c.toUpper = 'W' then parseAccessAux rest (access ||| accessWrite) removeEntry
    else if c.toUpper = 'R' then parseAccessAux rest (access ||| accessRead) removeEntry
    else if c = '-' then parseAccessAux rest access true
    else none

/-- Parse a whole access string, starting from no access bits and no removal. -/
def parseAccess (accessStr : String) : Option (Nat × Bool) :=
  parseAccessAux accessStr.toList 0 false

/-- Shallow embedding of `setacls` (omnicli.cpp:760-861).  `fetchResult` and
`fetched` are what the `omniClientGetAcls` callback delivers, `setResult` is the
result delivered to the `omniClientSetAcls` callback.  The first component of
the result is the entry list passed to `omniClientSetAcls` (`none` when
`omniClientSetAcls` is never called), the second is the returned exit code. -/
def setacls (args : List String) (fetchResult : OmniClientResult) (fetched : List AclEntry)
    (setResult : OmniClientResult) : Option (List AclEntry) × Nat :=
  if args.length ≤ 3 then (none, EXIT_FAILURE)
  else
    match parseAccess (args.getD 3 "") with
    | none => (none, EXIT_FAILURE)
    | some (access, removeEntry) =>
      if fetchResult ≠ OmniClientResult.Ok then (none, EXIT_FAILURE)
      else
        let name := args.getD 2 ""
        let entries := fetched.filter fun e => e.name ≠ name
        let found := fetched.any fun e => e.name = name
        if removeEntry then
          if !found then (none, EXIT_FAILURE)
          else (some entries, resultToRetcode setResult)
        else (some (entries ++ [⟨name, access⟩]), resultToRetcode setResult)

lemma parseAccessAux_removeEntry {cs : List Char} {a : Nat} {r : Bool} {access : Nat}
    {removeEntry : Bool} (h : parseAccessAux cs a r = some (access, removeEntry)) :
    (removeEntry = true ↔ r = true ∨ '-' ∈ cs) := by
  induction cs generalizing a r with
  | nil =>
    simp [parseAccessAux] at h
    simp [h.2]
  | cons c rest ih =>
    by_cases hA : c.toUpper = 'A'
    · have hcne : ¬ ('-' = c) := by
        intro he; rw [← he] at hA; simp at hA
      rw [parseAccessAux, if_pos hA] at h
      rw [ih h]
      simp [List.mem_cons, hcne]
    · by_cases hW : c.toUpper = 'W'
      · have hcne : ¬ ('-' = c) := by
          intro he; rw [← he] at hW; simp at hW
        rw [parseAccessAux, if_neg hA, if_pos hW] at h
        rw [ih h]
        simp [List.mem_cons, hcne]
      · by_cases hR : c.toUpper = 'R'
        · have hcne : ¬ ('-' = c) := by
            intro he; rw [← he] at hR; simp at hR
          rw [parseAccessAux, if_neg hA, if_neg hW, if_pos hR] at h
          rw [ih h]
          simp [List.mem_cons, hcne]
        · by_cases hD : c = '-'
          · rw [parseAccessAux, if_neg hA, if_neg hW, if_neg hR, if_pos hD] at h
            simp [hD, ih h]
          · rw [parseAccessAux, if_neg hA, if_neg hW, if_neg hR, if_neg hD] at h
            exact absurd h (by simp)

/-- C9: `setacls` sends to `omniClientSetAcls` exactly the previously fetched
entries minus any entry with the given name, plus (unless the access string
contains '-') one new entry for that name with the parsed access bits; when '-'
is given but the name is absent from the fetched list, or the initial fetch does
not return Ok, it returns EXIT_FAILURE without calling `omniClientSetAcls`.
The parsed removeEntry flag is set exactly when the access string contains '-'. -/
theorem setacls_preserves_other_entries (args : List String)
    (fetchResult : OmniClientResult) (fetched : List AclEntry)
    (setResult : OmniClientResult) :
    (∀ access removeEntry, 3 < args.length →
      parseAccess (args.getD 3 "") = some (access, removeEntry) →
      (fetchResult = OmniClientResult.Ok →
        (removeEntry = false →
          setacls args fetchResult fetched setResult =
            (some ((fetched.filter fun e => e.name ≠ args.getD 2 "") ++
              [⟨args.getD 2 "", access⟩]), resultToRetcode setResult)) ∧
        (removeEntry = true → (fetched.any fun e => e.name = args.getD 2 "") = true →
          setacls args fetchResult fetched setResult =
            (some (fetched.filter fun e => e.name ≠ args.getD 2 ""),
             resultToRetcode setResult)) ∧
        (removeEntry = true → (fetched.any fun e => e.name = args.getD 2 "") = false →
          setacls args fetchResult fetched setResult = (none, EXIT_FAILURE))) ∧
      (fetchResult ≠ OmniClientResult.Ok →
        setacls args fetchResult fetched setResult = (none, EXIT_FAILURE))) ∧
    (∀ accessStr access removeEntry,
      parseAccess accessStr = some (access, removeEntry) →
      (removeEntry = true ↔ '-' ∈ accessStr.toList)) := by
  constructor
  · intro access removeEntry hlen hparse
    have hc : ¬ (args.length ≤ 3) := by omega
    constructor
    · intro hfetch
      subst hfetch
      refine ⟨?_, ?_, ?_⟩
      · intro hrm
        subst hrm
        unfold setacls
        rw [if_neg hc, hparse]
        simp
      · intro hrm hfound
        subst hrm
        unfold setacls
        rw [if_neg hc, hparse]
        dsimp only
        rw [if_neg (show ¬ (OmniClientResult.Ok ≠ OmniClientResult.Ok) from fun hh => hh rfl)]
        rw [if_pos rfl, hfound]
        rw [if_neg (by decide)]
      · intro hrm hfound
        subst hrm
        unfold setacls
        rw [if_neg hc, hparse]
        dsimp only
        rw [if_neg (show ¬ (OmniClientResult.Ok ≠ OmniClientResult.Ok) from fun hh => hh rfl)]
        rw [if_pos rfl, hfound]
        rw [if_pos (by decide)]
    · intro hfetch
      unfold setacls
      rw [if_neg hc, hparse]
      simp [hfetch]
  · intro accessStr access removeEntry hparse
    simpa using parseAccessAux_removeEntry hparse

/-- Witness for setacls_preserves_other_entries: removing "bob" keeps exactly
the other users' fetched entries. -/
theorem setacls_preserves_other_entries_witness :
    parseAccess "-" = some (0, true) ∧
    setacls ["setacls", "u", "bob", "-"] OmniClientResult.Ok
        [⟨"alice", 3⟩, ⟨"bob", 7⟩] OmniClientResult.Ok =
      (some [⟨"alice", 3⟩], resultToRetcode OmniClientResult.Ok) :=
  ⟨by decide,
   ((setacls_preserves_other_entries ["setacls", "u", "bob", "-"] OmniClientResult.Ok
      [⟨"alice", 3⟩, ⟨"bob", 7⟩] OmniClientResult.Ok).1 0 true (by decide)
      (by decide)).1 rfl |>.2.1 rfl (by decide)⟩

/-- What omnicli's `cat` prints for a successfully or unsuccessfully read file. -/
inductive CatPrint
  | resultMsg
  | tooLarge
  | verbatim (bytes : List Nat)
  | hexdump
deriving DecidableEq, Repr

/-- The per-byte test of the isAscii loop in `cat` (omnicli.cpp:613-623): a byte
passes when it is newline, tab, carriage return, or neither at or above 127 nor
below 32. -/
def isAsciiByte (b : Nat) : Bool :=
  b = 10 || b = 9 || b = 13 || !(127 ≤ b || b < 32)

/-- Shallow embedding of the read callback of `cat` (omnicli.cpp:598-638):
stores `resultToRetcode(result)`, prints the result message on a non-Ok result,
a size notice for contents over 1'000'000 bytes, the contents verbatim when all
bytes pass the isAscii test, and a hex dump otherwise. -/
def catCallback (result : OmniClientResult) (content : List Nat) : CatPrint × Nat :=
  let retCode := resultToRetcode result
  if result ≠ OmniClientResult.Ok then (CatPrint.resultMsg, retCode)
  else if 1 * 1000 * 1000 < content.length then (CatPrint.tooLarge, retCode)
  else if content.all isAsciiByte then (CatPrint.verbatim content, retCode)
  else (CatPrint.hexdump, retCode)

/-- C10: `cat` never prints the raw contents of a file larger than 1,000,000
bytes (a size notice is printed instead); within the limit the contents are
printed verbatim iff every byte is newline, tab, carriage return or printable
ASCII in [32, 127), and a hex dump is printed otherwise; and the return code is
determined solely by the OmniClientResult of the read. -/
theorem cat_print_and_retcode (result : OmniClientResult) (content : List Nat) :
    ((catCallback result content).1 = CatPrint.verbatim content →
      content.length ≤ 1000000) ∧
    (result = OmniClientResult.Ok → 1000000 < content.length →
      (catCallback result content).1 = CatPrint.tooLarge) ∧
    (result = OmniClientResult.Ok → content.length ≤ 1000000 →
      ((catCallback result content).1 = CatPrint.verbatim content ↔
        content.all isAsciiByte = true) ∧
      (content.all isAsciiByte = false →
        (catCallback result content).1 = CatPrint.hexdump)) ∧
    ((catCallback result content).2 = resultToRetcode result) := by
  by_cases hr : result = OmniClientResult.Ok
  · subst hr
    by_cases hl : 1 * 1000 * 1000 < content.length
    · refine ⟨?_, fun _ _ => ?_, fun _ hle => ?_, ?_⟩
      · intro hv
        simp [catCallback, hl] at hv
      · simp [catCallback, hl]
      · exfalso
        simp at hl
        omega
      · simp [catCallback, hl]
    · cases ha : content.all isAsciiByte with
      | true =>
        refine ⟨?_, fun _ hgt => ?_, fun _ _ => ⟨?_, ?_⟩, ?_⟩
        · intro hv
          simp at hl
          omega
        · exfalso
          simp at hl
          omega
        · simp [catCallback, hl, ha]
        · intro hfalse
          exact absurd hfalse (by simp)
        · simp [catCallback, hl, ha]
      | false =>
        refine ⟨?_, fun _ hgt => ?_, fun _ _ => ⟨?_, ?_⟩, ?_⟩
        · intro hv
          simp [catCallback, hl, ha] at hv
        · exfalso
          simp at hl
          omega
        · simp [catCallback, hl, ha]
        · intro hfalse
          simp [catCallback, hl, ha]
        · simp [catCallback, hl, ha]
  · refine ⟨?_, fun he _ => absurd he hr, fun he _ => absurd he hr, ?_⟩
    · intro hv
      simp [catCallback, hr] at hv
    · simp [catCallback, hr]

/-- Witness for cat_print_and_retcode: a file of 1,000,001 identical bytes gets
the size notice rather than its contents. -/
theorem cat_print_and_retcode_witness :
    (catCallback OmniClientResult.Ok (List.replicate 1000001 65)).1 = CatPrint.tooLarge :=
  (cat_print_and_retcode OmniClientResult.Ok (List.replicate 1000001 65)).2.1 rfl
    (by rw [List.length_replicate]; norm_num)

/-- White-space delimiters of `tokenize` (omnicli.cpp:80, 113): space or tab. -/
def isSpaceTab (c : Char) : Bool :=
  c = ' ' || c = '\t'

/-- Predicate for characters before the terminating newline of `tokenize`. -/
def notNewline (c : Char) : Bool :=
  !(c = '\n')

/-- Loop state of `tokenize` (omnicli.cpp:67-71): completed tokens, the token
being built, and the inWhiteSpace/inQuote/backslashCount bookkeeping, plus a
flag recording that the `break` on a newline was taken. -/
structure TokState where
  tokens : List (List Char)
  token : List Char
  inWhiteSpace : Bool
  inQuote : Bool
  backslashCount : Nat
  done : Bool
deriving DecidableEq, Repr

/-- Initial state of the `tokenize` loop. -/
def initTokState : TokState :=
  ⟨[], [], true, false, 0, false⟩

/-- One iteration of the character loop of `tokenize` (omnicli.cpp:72-121),
with the C++ continue/fall-through structure flattened into nested conditions:
after a newline the loop is done; white space is skipped while in white space;
a backslash is only counted; a double quote emits backslashCount/2 literal
backslashes and then either (odd count) a literal quote or (even count) a
quote-mode toggle; otherwise any counted backslashes become literal, and the
character either ends the token (unquoted space/tab) or is appended to it. -/
def tokStep (s : TokState) (c : Char) : TokState :=
  if s.done then s
  else if c = '\n' then { s with done := true }
  else if s.inWhiteSpace ∧ (c = ' ' ∨ c = '\t') then s
  else if c = '\\' then
    { s with inWhiteSpace := false, backslashCount := s.backslashCount + 1 }
  else if c = '\"' then
    (if s.backslashCount % 2 = 1 then
      { s with inWhiteSpace := false,
               token := s.token ++ List.replicate (s.backslashCount / 2) '\\' ++ ['\"'],
               backslashCount := 0 }
    else
      { s with inWhiteSpace := false,
               token := s.token ++ List.replicate (s.backslashCount / 2) '\\',
               inQuote := !s.inQuote,
               backslashCount := 0 })
  else if s.inQuote = false ∧ (c = ' ' ∨ c = '\t') then
    { s with inWhiteSpace := true,
             tokens := s.tokens ++ [s.token ++ List.replicate s.backslashCount '\\'],
             token := [],
             backslashCount := 0 }
  else
    { s with inWhiteSpace := false,
             token := s.token ++ List.replicate s.backslashCount '\\' ++ [c],
             backslashCount := 0 }

/-- The epilogue of `tokenize` (omnicli.cpp:122-129): trailing backslashes
become literal and a non-empty final token is appended. -/
def tokFinish (s : TokState) : List (List Char) :=
  if s.token ++ List.replicate s.backslashCount '\\' = [] then s.tokens
  else s.tokens ++ [s.token ++ List.replicate s.backslashCount '\\']

/-- Shallow embedding of `tokenize` (omnicli.cpp:65-131) on a line given as a
character list. -/
def tokenize (line : List Char) : List (List Char) :=
  tokFinish (line.foldl tokStep initTokState)

/-- Specification-side splitter: the maximal space/tab-separated words of a
line, in order; `cur` is the word being accumulated. -/
def maximalWordsAux : List Char → List Char → List (List Char)
  | [], cur => if cur = [] then [] else [cur]
  | c :: rest, cur =>
    if isSpaceTab c then
      (if cur = [] then maximalWordsAux rest [] else cur :: maximalWordsAux rest [])
    else maximalWordsAux rest (cur ++ [c])

/-- The maximal space/tab-separated words of a line, in order. -/
def maximalWords (cs : List Char) : List (List Char) :=
  maximalWordsAux cs []

lemma tokStep_of_done {s : TokState} (c : Char) (h : s.done = true) : tokStep s c = s := by
  unfold tokStep
  rw [if_pos h]

lemma foldl_tokStep_of_done {s : TokState} (cs : List Char) (h : s.done = true) :
    cs.foldl tokStep s = s := by
  induction cs with
  | nil => rfl
  | cons c rest ih => rw [List.foldl_cons, tokStep_of_done c h]; exact ih

lemma tokStep_done_of_ne {s : TokState} {c : Char} (hc : ¬ (c = '\n'))
    (h : s.done = false) : (tokStep s c).done = false := by
  unfold tokStep
  rw [if_neg (by simp [h]), if_neg hc]
  split_ifs <;> exact h

lemma foldl_tokStep_newline (cs : List Char) (s : TokState) (h : s.done = false) :
    tokFinish (cs.foldl tokStep s) =
      tokFinish ((cs.takeWhile notNewline).foldl tokStep s) := by
  induction cs generalizing s with
  | nil => rfl
  | cons c rest ih =>
    by_cases hc : c = '\n'
    · subst hc
      have hstep : tokStep s '\n' = { s with done := true } := by
        unfold tokStep
        rw [if_neg (by simp [h]), if_pos rfl]
      have htake : List.takeWhile notNewline ('\n' :: rest) = [] := by
        simp [List.takeWhile, notNewline]
      rw [List.foldl_cons, hstep, foldl_tokStep_of_done rest rfl, htake]
      rfl
    · have htake : List.takeWhile notNewline (c :: rest) =
          c :: List.takeWhile notNewline rest := by
        simp [List.takeWhile, notNewline, hc]
      rw [List.foldl_cons, ih (tokStep s c) (tokStep_done_of_ne hc h), htake, List.foldl_cons]

lemma clean_fold (cs : List Char) (s : TokState)
    (hq : '\"' ∉ cs) (hb : '\\' ∉ cs) (hn : '\n' ∉ cs)
    (hdone : s.done = false) (hquote : s.inQuote = false) (hbc : s.backslashCount = 0)
    (hws : s.inWhiteSpace = true ↔ s.token = []) :
    tokFinish (cs.foldl tokStep s) = s.tokens ++ maximalWordsAux cs s.token := by
  induction cs generalizing s with
  | nil =>
    rw [List.foldl_nil]
    unfold tokFinish
    simp only [maximalWordsAux]
    rw [hbc]
    by_cases he : s.token = [] <;> simp [he]
  | cons c rest ih =>
    have hq' : '\"' ∉ rest := fun hh => hq (List.mem_cons_of_mem _ hh)
    have hb' : '\\' ∉ rest := fun hh => hb (List.mem_cons_of_mem _ hh)
    have hn' : '\n' ∉ rest := fun hh => hn (List.mem_cons_of_mem _ hh)
    have hcq : ¬ (c = '\"') := fun he => hq (List.mem_cons.mpr (Or.inl he.symm))
    have hcb : ¬ (c = '\\') := fun he => hb (List.mem_cons.mpr (Or.inl he.symm))
    have hcn : ¬ (c = '\n') := fun he => hn (List.mem_cons.mpr (Or.inl he.symm))
    rw [List.foldl_cons]
    by_cases hsp : c = ' ' ∨ c = '\t'
    · have hsptrue : isSpaceTab c = true := by
        rcases hsp with h | h <;> simp [isSpaceTab, h]
      by_cases hwstrue : s.inWhiteSpace = true
      · have htok : s.token = [] := hws.mp hwstrue
        have hstep : tokStep s c = s := by
          unfold tokStep
          rw [if_neg (by simp [hdone]), if_neg hcn, if_pos ⟨hwstrue, hsp⟩]
        rw [hstep, ih s hq' hb' hn' hdone hquote hbc hws]
        simp only [maximalWordsAux]
        rw [if_pos hsptrue, if_pos htok, htok]
      · have htok : ¬ (s.token = []) := fun he => hwstrue (hws.mpr he)
        have hstep : tokStep s c =
            { s with inWhiteSpace := true, tokens := s.tokens ++ [s.token],
                     token := [], backslashCount := 0 } := by
          unfold tokStep
          rw [if_neg (by simp [hdone]), if_neg hcn,
              if_neg (fun hh => hwstrue hh.1), if_neg hcb, if_neg hcq,
              if_pos ⟨hquote, hsp⟩, hbc]
          simp
        rw [hstep, ih ⟨s.tokens ++ [s.token], [], true, s.inQuote, 0, s.done⟩
          hq' hb' hn' hdone hquote rfl (by simp)]
        simp only [maximalWordsAux]
        rw [if_pos hsptrue, if_neg htok]
        simp
    · have hspfalse : isSpaceTab c = false := by
        simp only [isSpaceTab, Bool.or_eq_false_iff, decide_eq_false_iff_not]
        exact ⟨fun h1 => hsp (Or.inl h1), fun h2 => hsp (Or.inr h2)⟩
      have hstep : tokStep s c =
          { s with inWhiteSpace := false, token := s.token ++ [c],
                   backslashCount := 0 } := by
        unfold tokStep
        rw [if_neg (by simp [hdone]), if_neg hcn,
            if_neg (fun hh => hsp hh.2), if_neg hcb, if_neg hcq,
            if_neg (fun hh => hsp hh.2), hbc]
        simp
      rw [hstep, ih ⟨s.tokens, s.token ++ [c], false, s.inQuote, 0, s.done⟩
        hq' hb' hn' hdone hquote rfl (by simp)]
      simp only [maximalWordsAux]
      rw [if_neg (by simp [hspfalse])]

lemma foldl_backslashes (n : Nat) (s : TokState) (hdone : s.done = false)
    (hws : s.inWhiteSpace = false) :
    (List.replicate n '\\').foldl tokStep s =
      { s with inWhiteSpace := false, backslashCount := s.backslashCount + n } := by
  induction n generalizing s with
  | zero =>
    rcases s with ⟨tks, tk, ws, q, bc, d⟩
    simp only at hws
    subst hws
    simp
  | succ m ih =>
    have hstep : tokStep s '\\' =
        { s with inWhiteSpace := false, backslashCount := s.backslashCount + 1 } := by
      unfold tokStep
      rw [if_neg (by simp [hdone]), if_neg (by decide),
          if_neg (by simp [hws]), if_pos rfl]
    rw [List.replicate_succ, List.foldl_cons, hstep,
        ih ⟨s.tokens, s.token, false, s.inQuote, s.backslashCount + 1, s.done⟩ hdone rfl]
    simp [TokState.mk.injEq]
    omega

/-- C8: `tokenize` implements the documented Windows command-line rules.  For
every line with no double quotes and no backslashes the result is exactly the
maximal space/tab-separated words of the line (up to the terminating newline),
in order; a newline terminates parsing; from any mid-token state, 2n backslashes
followed by a double quote yield n literal backslashes and toggle quoting mode,
2n+1 backslashes followed by a double quote yield n literal backslashes plus a
literal quote, backslashes followed by an ordinary character are literal, and a
space inside quotes is appended to the token instead of delimiting it. -/
theorem tokenize_windows_rules :
    (∀ cs : List Char, '\"' ∉ cs → '\\' ∉ cs →
      tokenize cs = maximalWords (cs.takeWhile notNewline)) ∧
    (∀ cs : List Char, tokenize cs = tokenize (cs.takeWhile notNewline)) ∧
    (∀ (s : TokState) (n : Nat), s.done = false → s.inWhiteSpace = false →
      s.backslashCount = 0 →
      (List.replicate (2 * n) '\\' ++ ['\"']).foldl tokStep s =
        { s with inWhiteSpace := false, token := s.token ++ List.replicate n '\\',
                 inQuote := !s.inQuote, backslashCount := 0 }) ∧
    (∀ (s : TokState) (n : Nat), s.done = false → s.inWhiteSpace = false →
      s.backslashCount = 0 →
      (List.replicate (2 * n + 1) '\\' ++ ['\"']).foldl tokStep s =
        { s with inWhiteSpace := false,
                 token := s.token ++ List.replicate n '\\' ++ ['\"'],
                 backslashCount := 0 }) ∧
    (∀ (s : TokState) (n : Nat) (c : Char), s.done = false → s.inWhiteSpace = false →
      s.backslashCount = 0 → ¬ (c = '\"') → ¬ (c = '\\') → ¬ (c = '\n') →
      isSpaceTab c = false →
      (List.replicate n '\\' ++ [c]).foldl tokStep s =
        { s with inWhiteSpace := false,
                 token := s.token ++ List.replicate n '\\' ++ [c],
                 backslashCount := 0 }) ∧
    (∀ s : TokState, s.done = false → s.inWhiteSpace = false → s.inQuote = true →
      s.backslashCount = 0 →
      tokStep s ' ' =
        { s with inWhiteSpace := false, token := s.token ++ [' '],
                 backslashCount := 0 }) := by
  refine ⟨?_, ?_, ?_, ?_, ?_, ?_⟩
  · intro cs hq hb
    unfold tokenize maximalWords
    rw [foldl_tokStep_newline cs initTokState rfl]
    rw [clean_fold (cs.takeWhile notNewline) initTokState
      (fun hh => hq (List.takeWhile_subset _ hh))
      (fun hh => hb (List.takeWhile_subset _ hh))
      (fun hh => by simpa [notNewline] using List.mem_takeWhile_imp hh)
      rfl rfl rfl (by simp [initTokState])]
    rfl
  · intro cs
    exact foldl_tokStep_newline cs initTokState rfl
  · intro s n hdone hws hbc
    obtain ⟨tks, tk, ws, q, bc, d⟩ := s
    simp only at hdone hws hbc
    subst hdone hws hbc
    rw [List.foldl_append, foldl_backslashes (2 * n) _ rfl rfl]
    simp only [List.foldl_cons, List.foldl_nil, Nat.zero_add]
    unfold tokStep
    rw [if_neg (by simp), if_neg (by decide), if_neg (by simp), if_neg (by decide),
        if_pos rfl, if_neg (by simp)]
    have h2 : 2 * n / 2 = n := by omega
    simp [h2]
  · intro s n hdone hws hbc
    obtain ⟨tks, tk, ws, q, bc, d⟩ := s
    simp only at hdone hws hbc
    subst hdone hws hbc
    rw [List.foldl_append, foldl_backslashes (2 * n + 1) _ rfl rfl]
    simp only [List.foldl_cons, List.foldl_nil, Nat.zero_add]
    unfold tokStep
    rw [if_neg (by simp), if_neg (by decide), if_neg (by simp), if_neg (by decide),
        if_pos rfl, if_pos (by show (2 * n + 1) % 2 = 1; omega)]
    have h2 : (2 * n + 1) / 2 = n := by omega
    simp [h2]
  · intro s n c hdone hws hbc hcq hcb hcn hsp
    have hsp2 : ¬ (c = ' ' ∨ c = '\t') := by
      simp only [isSpaceTab, Bool.or_eq_false_iff, decide_eq_false_iff_not] at hsp
      rintro (h1 | h2)
      · exact hsp.1 h1
      · exact hsp.2 h2
    obtain ⟨tks, tk, ws, q, bc, d⟩ := s
    simp only at hdone hws hbc
    subst hdone hws hbc
    rw [List.foldl_append, foldl_backslashes n _ rfl rfl]
    simp only [List.foldl_cons, List.foldl_nil, Nat.zero_add]
    unfold tokStep
    rw [if_neg (by simp), if_neg hcn, if_neg (by simp), if_neg hcb, if_neg hcq,
        if_neg (fun hh => hsp2 hh.2)]
  · intro s hdone hws hq hbc
    obtain ⟨tks, tk, ws, q, bc, d⟩ := s
    simp only at hdone hws hq hbc
    subst hdone hws hq hbc
    unfold tokStep
    rw [if_neg (by simp), if_neg (by decide), if_neg (by simp), if_neg (by decide),
        if_neg (by decide), if_neg (by simp)]
    simp

/-- Witness for tokenize_windows_rules at a concrete quote-free,
backslash-free line: two space-separated words parse as two tokens. -/
theorem tokenize_windows_rules_witness :
    '\"' ∉ ['l', 's', ' ', '-', 'a', '\n'] ∧ '\\' ∉ ['l', 's', ' ', '-', 'a', '\n'] ∧
    tokenize ['l', 's', ' ', '-', 'a', '\n'] =
      maximalWords (['l', 's', ' ', '-', 'a', '\n'].takeWhile notNewline) :=
  ⟨by decide, by decide,
   tokenize_windows_rules.1 ['l', 's', ' ', '-', 'a', '\n'] (by decide) (by decide)⟩

end OmniCli

/-- C3 as stated fails for omnicli: its background update thread does not call
omniClientLiveProcess on every iteration.  At the concrete state sequence
[(haveUpdates := false, shutdown := false)] the thread executes one iteration
(g_shutdown is unset) but performs zero omniClientLiveProcess calls, so the
number of calls is below the number of executed iterations. -/
theorem omnicli_thread_skips_liveProcess_counterexample :
    ¬ (OmniCli.itersExecuted [OmniCli.CliState.mk false false] ≤
       (OmniCli.updateThreadIters [OmniCli.CliState.mk false false]).length) := by
  decide

/-- C3 (amended): helloWorld's liveEdit loop and omniSensorThread's doWork loop
invoke omniClientLiveProcess on every iteration (once per keystroke read,
respectively once per 300 ms sleep cycle until the stopped flag is set), while
omnicli's background update thread invokes it exactly on those iterations that
observe g_haveUpdates, blocking on its condition variable otherwise, until
g_shutdown is set. -/
theorem live_update_polling_loops :
    (∀ (inputs : List (Char × String × Bool)) (it : List HelloWorld.HWAction),
      it ∈ HelloWorld.helloLiveEditIters inputs → HelloWorld.HWAction.liveProcess ∈ it) ∧
    (∀ (stops : List Bool) (it : List SensorThread.SensorAction),
      it ∈ SensorThread.doWork stops → SensorThread.SensorAction.liveProcess ∈ it) ∧
    (∀ sts : List OmniCli.CliState,
      (OmniCli.updateThreadIters sts).length = OmniCli.itersWithUpdates sts) := by
  refine ⟨?_, ?_, ?_⟩
  · intro inputs it h
    obtain ⟨c, line, j, rfl⟩ := HelloWorld.mem_helloLiveEditIters h
    exact HelloWorld.liveProcess_mem_helloLiveEditIter c line j
  · intro stops it h
    exact SensorThread.mem_doWork h
  · intro sts
    exact OmniCli.updateThreadIters_length sts

/-- Witness for live_update_polling_loops: a concrete helloWorld liveEdit run
whose single iteration contains the omniClientLiveProcess call. -/
theorem live_update_polling_loops_witness :
    HelloWorld.helloLiveEditIter 't' "" true ∈
      HelloWorld.helloLiveEditIters [('t', "", true)] ∧
    HelloWorld.HWAction.liveProcess ∈ HelloWorld.helloLiveEditIter 't' "" true :=
  ⟨by decide,
   live_update_polling_loops.1 [('t', "", true)] (HelloWorld.helloLiveEditIter 't' "" true)
     (by decide)⟩

/-- C5 as stated fails: the merge prompt inside endAndMergeSession does not
consume single-character input.  On the concrete stdin token sequence
["xx", "c"] the prompt loop consumes the two-character string "xx" (and then
"c"), so not every consumed input has length one. -/
theorem single_char_input_counterexample :
    ¬ (∀ s ∈ LiveSession.mergePromptReads ["xx", "c"], s.length = 1) := by
  decide

lemma mergePromptReads_eq_takeWhile (inputs : List String) :
    LiveSession.mergePromptReads inputs =
      inputs.takeWhile (fun s => !LiveSession.acceptedMergeOption s) ++
        (inputs.find? LiveSession.acceptedMergeOption).toList := by
  induction inputs with
  | nil => rfl
  | cons a rest ih =>
    cases ha : LiveSession.acceptedMergeOption a with
    | true => simp [LiveSession.mergePromptReads, ha, List.takeWhile, List.find?]
    | false => simp [LiveSession.mergePromptReads, ha, List.takeWhile, List.find?, ih]

/-- C5 (amended): each iteration of helloWorld's liveEdit loop and of
liveSession's liveEdit loop reads exactly one command character (via
getchar/_getch), but the prompts presented within these menu flows read
whitespace-delimited strings (or whole lines), not single characters: the merge
prompt of endAndMergeSession consumes every whitespace-delimited token up to and
including the first accepted option, and such a consumed token can be longer
than one character. -/
theorem menu_command_input_reads :
    (∀ (g : Bool) (c : Char) (mOk : Bool),
      LiveSession.countReadChars (LiveSession.liveEditIteration g c mOk).actions = 1) ∧
    (∀ (c : Char) (line : String) (j : Bool),
      HelloWorld.countHWReadChars (HelloWorld.helloLiveEditIter c line j) = 1) ∧
    (∀ inputs : List String,
      LiveSession.mergePromptReads inputs =
        inputs.takeWhile (fun s => !LiveSession.acceptedMergeOption s) ++
          (inputs.find? LiveSession.acceptedMergeOption).toList) ∧
    (∃ inputs : List String, ∃ s ∈ LiveSession.mergePromptReads inputs, 1 < s.length) := by
  refine ⟨?_, ?_, mergePromptReads_eq_takeWhile, ⟨["xx", "c"], "xx", by decide, by decide⟩⟩
  · intro g c mOk
    cases g <;> simp [LiveSession.liveEditIteration, LiveSession.countReadChars, List.countP_cons]
  · intro c line j
    exact HelloWorld.countHWReadChars_helloLiveEditIter c line j

/-- C6: the hardcoded demo geometry tables are well formed.  The box tables of
helloWorld's createBox and omniSimpleSensor's createZoneGeometry have exactly 36
face-vertex indices, each in [0, 24), 24 points whose coordinates are each +50
or -50, and 12 triangular faces (every faceVertexCounts entry is 3); and the
quad built by createQuad for any size s has a single 4-vertex face with indices
[0,1,2,3], points (-s,0,-s), (-s,0,s), (s,0,s), (s,0,-s), and all four normals
equal to (0,1,0). -/
theorem demo_geometry_tables :
    HelloWorld.gBoxVertexIndices.length = 36 ∧
    (HelloWorld.gBoxVertexIndices.all fun i => decide (0 ≤ i ∧ i < 24)) = true ∧
    HelloWorld.gBoxPoints.length = 24 ∧
    (HelloWorld.gBoxPoints.all fun p =>
      decide ((p.1 = 50 ∨ p.1 = -50) ∧ (p.2.1 = 50 ∨ p.2.1 = -50) ∧
        (p.2.2 = 50 ∨ p.2.2 = -50))) = true ∧
    HelloWorld.createBoxFaceVertexCounts.length = 12 ∧
    (HelloWorld.createBoxFaceVertexCounts.all fun n => decide (n = 3)) = true ∧
    SimpleSensor.gBoxVertexIndices.length = 36 ∧
    (SimpleSensor.gBoxVertexIndices.all fun i => decide (0 ≤ i ∧ i < 24)) = true ∧
    SimpleSensor.gBoxPoints.length = 24 ∧
    (SimpleSensor.gBoxPoints.all fun p =>
      decide ((p.1 = 50 ∨ p.1 = -50) ∧ (p.2.1 = 50 ∨ p.2.1 = -50) ∧
        (p.2.2 = 50 ∨ p.2.2 = -50))) = true ∧
    SimpleSensor.createZoneGeometryFaceVertexCounts.length = 12 ∧
    (SimpleSensor.createZoneGeometryFaceVertexCounts.all fun n => decide (n = 3)) = true ∧
    HelloWorld.createQuadFaceVertexCounts = [4] ∧
    HelloWorld.createQuadFaceVertexIndices = [0, 1, 2, 3] ∧
    (∀ s : Int, HelloWorld.createQuadPoints s =
      [(-s, 0, -s), (-s, 0, s), (s, 0, s), (s, 0, -s)]) ∧
    HelloWorld.createQuadNormals = List.replicate 4 (0, 1, 0) := by
  refine ⟨?_, ?_, ?_, ?_, ?_, ?_, ?_, ?_, ?_, ?_, ?_, ?_, ?_, ?_, ?_, ?_⟩ <;>
    first
      | decide
      | exact fun s => rfl
